import Mathlib

/-!
Verification of the replica orchestration subsystem of
`release-server-service` against its specification.

The development shallowly embeds the Python sources:

* `ReplicaStateManager` (`core/state_manager.py`): a file-per-record JSON
  store is modelled as an association list from replica id to record,
  a record being an association list from field name to JSON-like value.
  ISO-8601 wall-clock timestamps are modelled as naturals passed in
  explicitly (each call site of `datetime.now` becomes a `now` parameter).
* `ReplicaManagerV2` (`core/replica_manager_v2.py`): `create_replica`,
  `stop_replica`, the `_monitor_replicas` tick body, `_check_pid_alive`,
  and `_get_wsjob_ids_from_workdir`.
* `is_process_alive` / `poll_health_endpoint` (`core/health.py`): the
  `os.kill(pid, 0)` probe outcome and the per-attempt HTTP outcome are
  supplied as oracle functions; the poll loop is run on the discrete
  time grid `0, interval, 2*interval, …` induced by its sleep calls.
* The worker process `main` (`core/replica_worker.py`): each of its
  `update_replica_state` call sites becomes a `WorkerStep` constructor
  carrying exactly the fields that call site writes.
-/

/-- JSON-like field values stored in a replica record. -/
inductive JValue where
  | str (s : String)
  | nat (n : Nat)
  | list (xs : List String)
  | null
  deriving DecidableEq, Repr

/-- A replica record: field name to value, first binding wins on lookup
(Python dicts have unique keys, which writes below preserve). -/
abbrev Record := List (String × JValue)

/-- The whole state directory: replica id to record. -/
abbrev Store := List (String × Record)

/-- Look a field up in a record (Python `state.get(k)`). -/
def recGet : Record → String → Option JValue
  | [], _ => none
  | (k₀, v₀) :: rest, k => if k₀ = k then some v₀ else recGet rest k

/-- Python `state[k] = v`: overwrite the binding in place, append if absent. -/
def setField : Record → String → JValue → Record
  | [], k, v => [(k, v)]
  | (k₀, v₀) :: rest, k, v =>
    if k₀ = k then (k, v) :: rest else (k₀, v₀) :: setField rest k v

/-- Python `state.update(updates)`: left-to-right field overwrite. -/
def dictUpdate (r : Record) (updates : Record) : Record :=
  updates.foldl (fun acc kv => setField acc kv.1 kv.2) r

/-- Look a record up in the store (read of `{id}.json`). -/
def storeGet : Store → String → Option Record
  | [], _ => none
  | (k₀, r₀) :: rest, k => if k₀ = k then some r₀ else storeGet rest k

/-- Write a record file: overwrite if present, create otherwise. -/
def storeSet : Store → String → Record → Store
  | [], k, r => [(k, r)]
  | (k₀, r₀) :: rest, k, r =>
    if k₀ = k then (k, r) :: rest else (k₀, r₀) :: storeSet rest k r

/-- `ReplicaStateManager.create_replica_state`: unconditionally writes the
record file with the default fields overlaid by `initial_state`
(`{"replica_id": …, "status": "pending", "created_at": now,
"updated_at": now, **initial_state}`).  There is no existence check. -/
def create_replica_state (s : Store) (replica_id : String)
    (initial_state : Record) (now : Nat) : Store :=
  storeSet s replica_id
    (dictUpdate
      [("replica_id", JValue.str replica_id),
       ("status", JValue.str "pending"),
       ("created_at", JValue.nat now),
       ("updated_at", JValue.nat now)]
      initial_state)

/-- `ReplicaStateManager.update_replica_state`: no-op when the record file
is missing; otherwise read-modify-write: `state.update(updates)` then
`state["updated_at"] = now`. -/
def update_replica_state (s : Store) (replica_id : String)
    (updates : Record) (now : Nat) : Store :=
  match storeGet s replica_id with
  | none => s
  | some state =>
    storeSet s replica_id
      (setField (dictUpdate state updates) "updated_at" (JValue.nat now))

/-- `ReplicaStateManager.get_replica_state`. -/
def get_replica_state (s : Store) (replica_id : String) : Option Record :=
  storeGet s replica_id

/-- Field of a stored record, `none` when the record is missing. -/
def recGetIn (s : Store) (replica_id field : String) : Option JValue :=
  match storeGet s replica_id with
  | some r => recGet r field
  | none => none

/-- The `status` field of a stored record, when it is a string. -/
def statusOf (s : Store) (replica_id : String) : Option String :=
  match recGetIn s replica_id "status" with
  | some (JValue.str x) => some x
  | _ => none

/-- The `error_message` field of a stored record, when it is a string. -/
def errMsgOf (s : Store) (replica_id : String) : Option String :=
  match recGetIn s replica_id "error_message" with
  | some (JValue.str x) => some x
  | _ => none

/-- The `endpoint` field of a stored record, when it is a string. -/
def endpointOf (s : Store) (replica_id : String) : Option String :=
  match recGetIn s replica_id "endpoint" with
  | some (JValue.str x) => some x
  | _ => none

/-- The `compile_wsjob` field of a stored record, when it is a list. -/
def compileOf (s : Store) (replica_id : String) : Option (List String) :=
  match recGetIn s replica_id "compile_wsjob" with
  | some (JValue.list xs) => some xs
  | _ => none

/-- The `execute_wsjob` field of a stored record, when it is a list. -/
def executeOf (s : Store) (replica_id : String) : Option (List String) :=
  match recGetIn s replica_id "execute_wsjob" with
  | some (JValue.list xs) => some xs
  | _ => none

/-- Spec-side description of a field merge (for the last-write-wins
comparison of `UpdateRecord`): the value of field `k` after applying
the updates left-to-right, starting from `orig`. -/
def specLastWrite (updates : Record) (orig : Option JValue) (k : String) :
    Option JValue :=
  updates.foldl (fun acc kv => if kv.1 = k then some kv.2 else acc) orig

/-- Outcome of the `os.kill(pid, 0)` liveness probe.  `noSuchProcess` is
`ProcessLookupError`, `permissionDenied` is `PermissionError` (both are
subclasses of `OSError`), `otherError` is any other exception. -/
inductive KillResult where
  | ok
  | noSuchProcess
  | permissionDenied
  | otherError
  deriving DecidableEq, Repr

/-- `health.is_process_alive`: non-positive pids are dead without probing;
otherwise `ok`/`permissionDenied` mean alive, `noSuchProcess` or any other
error mean dead.  `kill0` supplies the probe outcome per pid. -/
def is_process_alive (pid : Int) (kill0 : Int → KillResult) : Bool :=
  if pid ≤ 0 then false
  else
    match kill0 pid with
    | KillResult.ok => true
    | KillResult.noSuchProcess => false
    | KillResult.permissionDenied => true
    | KillResult.otherError => false

/-- `ReplicaManagerV2._check_pid_alive`: `except OSError: return False`
catches `ProcessLookupError` and `PermissionError` alike, and
`except Exception: return False` catches the rest. -/
def check_pid_alive (pid : Int) (kill0 : Int → KillResult) : Bool :=
  match kill0 pid with
  | KillResult.ok => true
  | KillResult.noSuchProcess => false
  | KillResult.permissionDenied => false
  | KillResult.otherError => false

/-- Outcome of one HTTP GET against `{base_url}/health` in
`poll_health_endpoint`: a 200 response, a non-200 response, or a network
error (`aiohttp.ClientError` / `asyncio.TimeoutError` / `OSError`). -/
inductive AttemptResult where
  | ok200
  | badStatus (code : Nat)
  | netError
  deriving DecidableEq, Repr

/-- Loop body of `health.poll_health_endpoint`, iterated over the discrete
time grid its `sleep(poll_interval_s)` induces.  `i` is the iteration
index, `fuel` the number of remaining grid points before the deadline.
`liveAt` gives the result of `is_process_alive(pid)` at iteration `i`
(`none` models `pid is None`), `att` the HTTP outcome of attempt `i`. -/
def pollHealthAux (liveAt : Option (Nat → Bool)) (att : Nat → AttemptResult) :
    Nat → Nat → Bool
  | _, 0 => false
  | i, fuel + 1 =>
    if (match liveAt with
        | some live => !(live i)
        | none => false) then
      false
    else
      match att i with
      | AttemptResult.ok200 => true
      | _ => pollHealthAux liveAt att (i + 1) fuel

/-- Number of loop iterations of `poll_health_endpoint`: the grid points
`0, interval, 2*interval, …` that lie strictly before `timeout`. -/
def numAttempts (timeout_s poll_interval_s : Nat) : Nat :=
  (timeout_s + poll_interval_s - 1) / poll_interval_s

/-- `health.poll_health_endpoint`, with elapsed time advancing by
`poll_interval_s` per iteration. -/
def poll_health_endpoint (timeout_s poll_interval_s : Nat)
    (liveAt : Option (Nat → Bool)) (att : Nat → AttemptResult) : Bool :=
  pollHealthAux liveAt att 0 (numAttempts timeout_s poll_interval_s)

/-- Whether the process guard lets iteration `i` proceed:
no pid was given, or the process is alive at iteration `i`. -/
def liveOk (liveAt : Option (Nat → Bool)) (i : Nat) : Bool :=
  match liveAt with
  | some live => live i
  | none => true

/-- `v` if present, JSON `null` otherwise (Python `None` serialization). -/
def optStr : Option String → JValue
  | some x => JValue.str x
  | none => JValue.null

/-- `v` if present, JSON `null` otherwise. -/
def optNat : Option Nat → JValue
  | some x => JValue.nat x
  | none => JValue.null

/-- One `update_replica_state` call site of the worker process
(`replica_worker.main`), carrying exactly the fields that site writes. -/
inductive WorkerStep where
  | creating (startedAt : Nat)
  | venvInfo (venvPath pythonExec : String)
  | starting
  | serverInfo (baseUrl : Option String) (port : Option Nat)
      (replicaPid : Option Nat)
  | waitingForReady
  | ready (endpoint : String) (readyAt : Nat)
  | unhealthy (endpoint : String)
  | failed (msg : String)
  | diagnostics (payload : Option String)

/-- The `updates` dictionary each worker call site passes to
`update_replica_state`. -/
def workerStepUpdate : WorkerStep → Record
  | WorkerStep.creating t =>
    [("status", JValue.str "creating"), ("worker_started_at", JValue.nat t)]
  | WorkerStep.venvInfo v p =>
    [("venv_path", JValue.str v), ("python_exec", JValue.str p)]
  | WorkerStep.starting => [("status", JValue.str "starting")]
  | WorkerStep.serverInfo b p pid =>
    [("base_url", optStr b), ("port", optNat p), ("replica_pid", optNat pid)]
  | WorkerStep.waitingForReady => [("status", JValue.str "waiting_for_ready")]
  | WorkerStep.ready e t =>
    [("status", JValue.str "ready"), ("display_status", JValue.str "Active"),
     ("endpoint", JValue.str e), ("ready_at", JValue.nat t)]
  | WorkerStep.unhealthy e =>
    [("status", JValue.str "unhealthy"), ("display_status", JValue.str "Failed"),
     ("endpoint", JValue.str e),
     ("error_message", JValue.str "Health check failed within timeout")]
  | WorkerStep.failed m =>
    [("status", JValue.str "failed"), ("display_status", JValue.str "Failed"),
     ("endpoint", JValue.str "NA"), ("error_message", JValue.str m)]
  | WorkerStep.diagnostics d => [("diagnostics", optStr d)]

/-- The `replica_pid` field under Python truthiness: a nonzero integer,
else nothing (`None`, `0`, missing, or a non-integer are all falsy here). -/
def pidNatOf (st : Record) : Option Nat :=
  match recGet st "replica_pid" with
  | some (JValue.nat n) => if n = 0 then none else some n
  | _ => none

/-- The `workdir` field under Python truthiness: a nonempty string. -/
def workdirOf (st : Record) : Option String :=
  match recGet st "workdir" with
  | some (JValue.str w) => if w = "" then none else some w
  | _ => none

/-- `state.get(k, [])` for the wsjob list fields. -/
def recGetList (st : Record) (k : String) : List String :=
  match recGet st k with
  | some (JValue.list xs) => xs
  | _ => []

/-- One process signal, as sent by `os.kill`. -/
inductive Sig where
  | sigterm
  | sigkill
  deriving DecidableEq, Repr

/-- The signal sent to the worker pid from the `.worker.pid` file
(`if worker_pid:` — skipped when absent or zero). -/
def workerSigList (sig : Sig) : Option Nat → List (Nat × Sig)
  | some p => if p = 0 then [] else [(p, sig)]
  | none => []

/-- The signal sent to the recorded workload pid (`if replica_pid:`). -/
def replicaSigList (sig : Sig) : Option Nat → List (Nat × Sig)
  | some p => [(p, sig)]
  | none => []

/-- `ReplicaManagerV2.stop_replica`: `None` when the record is missing;
otherwise sends one signal (SIGKILL iff `force`) to the worker pid (from
the `.worker.pid` file, if truthy) and one to the recorded `replica_pid`
(if truthy), then records status `stopped`.  Returns the new store and the
list of `(pid, signal)` sends attempted. -/
def stop_replica (s : Store) (replica_id : String) (force : Bool)
    (workerPid : Option Nat) (now : Nat) : Store × List (Nat × Sig) :=
  match storeGet s replica_id with
  | none => (s, [])
  | some state =>
    (update_replica_state s replica_id
      [("status", JValue.str "stopped"),
       ("display_status", JValue.str "Failed"),
       ("endpoint", JValue.str "NA")] now,
     workerSigList (if force then Sig.sigkill else Sig.sigterm) workerPid ++
       replicaSigList (if force then Sig.sigkill else Sig.sigterm)
         (pidNatOf state))

/-- The request fields `ReplicaManagerV2.create_replica` copies into the
initial state (values opaque to this development). -/
structure CreateReplicaReq where
  server_mode : String
  model_name : String
  multibox : JValue
  namespaceVal : JValue
  request_id : JValue

/-- The `initial_state` dictionary built in `create_replica` (step 4). -/
def createReplicaInitialState (req : CreateReplicaReq) (workdir : String) :
    Record :=
  [("server_mode", JValue.str req.server_mode),
   ("model_name", JValue.str req.model_name),
   ("status", JValue.str "pending"),
   ("display_status", JValue.str "Pending"),
   ("endpoint", JValue.str "NA"),
   ("workdir", JValue.str workdir),
   ("multibox", req.multibox),
   ("namespace", req.namespaceVal),
   ("request_id", req.request_id),
   ("compile_wsjob", JValue.list []),
   ("execute_wsjob", JValue.list [])]

/-- State-store effect of `ReplicaManagerV2.create_replica`: write the
initial `pending` record for a fresh id (worker spawning has no further
state-store effect before the worker's own first update). -/
def create_replica (s : Store) (replica_id : String)
    (req : CreateReplicaReq) (workdir : String) (now : Nat) : Store :=
  create_replica_state s replica_id
    (createReplicaInitialState req workdir) now

/-- The parsed `run_meta.json` a workload may write: each job entry
contributes its `"id"` field when present. -/
structure RunMeta where
  compile_jobs : List (Option String)
  execute_jobs : List (Option String)

/-- `ReplicaManagerV2._get_wsjob_ids_from_workdir`: `([], [])` when the
metadata file is absent (or unparsable); otherwise the `id` fields of
`compile_jobs` and `execute_jobs`, in order. -/
def get_wsjob_ids_from_workdir (meta : String → Option RunMeta)
    (workdir : String) : List String × List String :=
  match meta workdir with
  | none => ([], [])
  | some m => (m.compile_jobs.filterMap id, m.execute_jobs.filterMap id)

/-- The `error_message` written when the Monitor finds a dead workload. -/
def deathMsg (pid : Nat) : String :=
  "Replica process died (PID " ++ toString pid ++ ")"

/-- The `updates` dictionary of the Monitor's dead-process transition. -/
def failUpdate (pid now : Nat) : Record :=
  [("status", JValue.str "failed"),
   ("display_status", JValue.str "Failed"),
   ("endpoint", JValue.str "NA"),
   ("error_message", JValue.str (deathMsg pid)),
   ("died_at", JValue.nat now)]

/-- The statuses the Monitor treats as "supposedly running". -/
def runningStatuses : List String := ["ready", "waiting_for_ready", "starting"]

/-- `[j for j in ids if j not in cur]`: the newly discovered job ids. -/
def newJobs (ids cur : List String) : List String :=
  ids.filter (fun j => !(cur.contains j))

/-- The wsjob-merge update written when something new appeared, `none`
otherwise (`if new_compile or new_execute:`). -/
def wsjobMergePayload (ids : List String × List String)
    (curC curE : List String) : Option Record :=
  if (newJobs ids.1 curC).isEmpty && (newJobs ids.2 curE).isEmpty then none
  else
    some [("compile_wsjob", JValue.list (curC ++ newJobs ids.1 curC)),
          ("execute_wsjob", JValue.list (curE ++ newJobs ids.2 curE))]

/-- The wsjob-scraping side of a Monitor iteration (live-pid branch):
only runs while one of the two lists is still empty, needs a truthy
`workdir`, and merges what the metadata file currently shows. -/
def wsjobMergeAction (meta : String → Option RunMeta) (st : Record) :
    Option Record :=
  if (recGetList st "compile_wsjob").isEmpty ||
      (recGetList st "execute_wsjob").isEmpty then
    match workdirOf st with
    | some wd =>
      wsjobMergePayload (get_wsjob_ids_from_workdir meta wd)
        (recGetList st "compile_wsjob") (recGetList st "execute_wsjob")
    | none => none
  else none

/-- What one Monitor-tick iteration decides to write for one snapshot
record, from `ReplicaManagerV2._monitor_replicas`: skip non-running
statuses and falsy pids; dead pid writes `failUpdate`; live pid merges
newly discovered wsjob ids. -/
def tickAction (live : Nat → Bool) (meta : String → Option RunMeta)
    (now : Nat) (st : Record) : Option Record :=
  match recGet st "status" with
  | some (JValue.str status) =>
    if status ∈ runningStatuses then
      match pidNatOf st with
      | some p =>
        if live p then wsjobMergeAction meta st
        else some (failUpdate p now)
      | none => none
    else none
  | _ => none

/-- Apply one monitor iteration for snapshot entry `e` to the store. -/
def tickStep (live : Nat → Bool) (meta : String → Option RunMeta)
    (now : Nat) (acc : Store) (e : String × Record) : Store :=
  match tickAction live meta now e.2 with
  | some u => update_replica_state acc e.1 u now
  | none => acc

/-- One tick of `ReplicaManagerV2._monitor_replicas`: snapshot all records
(`list_replica_states`), then process each snapshot entry in turn against
the live store. -/
def monitorTick (live : Nat → Bool) (meta : String → Option RunMeta)
    (now : Nat) (s : Store) : Store :=
  s.foldl (tickStep live meta now) s

/-- One operation of a writer against the shared state store: a worker
transition, a Monitor tick, or a Coordinator stop request.  Each carries
its oracle inputs (wall clock, process liveness, metadata files). -/
inductive Op where
  | worker (replica_id : String) (step : WorkerStep) (now : Nat)
  | monitor (live : Nat → Bool) (meta : String → Option RunMeta) (now : Nat)
  | stop (replica_id : String) (force : Bool) (workerPid : Option Nat)
      (now : Nat)

/-- Whether an operation is a worker transition. -/
def Op.isWorker : Op → Bool
  | Op.worker _ _ _ => true
  | _ => false

/-- Effect of one operation on the state store. -/
def applyOp (s : Store) : Op → Store
  | Op.worker id step now => update_replica_state s id (workerStepUpdate step) now
  | Op.monitor live meta now => monitorTick live meta now s
  | Op.stop id force wp now => (stop_replica s id force wp now).1

/-- Effect of a sequence of operations, applied left to right. -/
def applyOps (s : Store) (ops : List Op) : Store := ops.foldl applyOp s

/-- A status is terminal when it is `stopped` or `failed`. -/
def TerminalStatus (o : Option String) : Prop :=
  o = some "stopped" ∨ o = some "failed"

instance (o : Option String) : Decidable (TerminalStatus o) := by
  unfold TerminalStatus
  infer_instance

/-- Oracle inputs of one Monitor tick. -/
structure TickParams where
  live : Nat → Bool
  meta : String → Option RunMeta
  now : Nat

/-- Run a sequence of Monitor ticks. -/
def runTicks (s : Store) (ps : List TickParams) : Store :=
  ps.foldl (fun acc p => monitorTick p.live p.meta p.now acc) s

/-- A sequence of `UpdateRecord` calls on one id: each entry is the
`updates` dictionary together with the wall-clock value of that call. -/
def applyUpdates (s : Store) (replica_id : String)
    (us : List (Record × Nat)) : Store :=
  us.foldl (fun acc p => update_replica_state acc replica_id p.1 p.2) s

/-- Spec-side last-write-wins over a call sequence: the value of field `k`
after the updates of `us` are applied left-to-right over `orig`. -/
def specLastWriteSeq (us : List (Record × Nat)) (orig : Option JValue)
    (k : String) : Option JValue :=
  us.foldl (fun acc p => specLastWrite p.1 acc k) orig

/-- The record's `updated_at` as a natural (0 when missing or non-numeric). -/
def updatedAtNat (s : Store) (replica_id : String) : Nat :=
  match recGetIn s replica_id "updated_at" with
  | some (JValue.nat t) => t
  | _ => 0

/-- The `updated_at` values observable after each call of an
`UpdateRecord` sequence (including the initial state). -/
def updatedAtTrace (s : Store) (replica_id : String)
    (us : List (Record × Nat)) : List Nat :=
  (us.scanl (fun acc p => update_replica_state acc replica_id p.1 p.2) s).map
    (fun st => updatedAtNat st replica_id)

def c1Stopped : Store :=
  (stop_replica (create_replica_state [] "r" [] 0) "r" false none 1).1

def c1AfterWorker : Store :=
  applyOps c1Stopped [Op.worker "r" (WorkerStep.creating 2) 3]

def c1WitnessOps : List Op :=
  [Op.monitor (fun _ => true) (fun _ => none) 4, Op.stop "r" false none 5]

def c2Store : Store :=
  [("r", [("status", JValue.str "ready"), ("replica_pid", JValue.nat 20)])]

def c3First : Store := create_replica_state [] "r" [] 0

def c3Second : Store := create_replica_state c3First "r" [("x", JValue.str "v")] 1

def c5Store : Store :=
  [("r", [("status", JValue.str "ready"), ("replica_pid", JValue.nat 4)])]

def c6Record : Record :=
  [("status", JValue.str "ready"), ("replica_pid", JValue.nat 7),
   ("workdir", JValue.str "w"),
   ("compile_wsjob", JValue.list ["a"]), ("execute_wsjob", JValue.list [])]

def c6Store : Store := [("r", c6Record)]

def c6Meta : String → Option RunMeta := fun wd =>
  if wd = "w" then some ⟨[some "a", some "b"], [some "x"]⟩ else none

def c7Store : Store := create_replica_state [] "r" [] 0

def c7Us : List (Record × Nat) :=
  [([("x", JValue.str "1")], 1), ([("x", JValue.str "2"), ("y", JValue.nat 5)], 2)]

def c10Store : Store := [("r", [("status", JValue.str "starting")])]

def c10Ticks : List TickParams := [⟨fun _ => false, fun _ => none, 5⟩]

def c8Att : Nat → AttemptResult :=
  fun i => if i = 1 then AttemptResult.ok200 else AttemptResult.netError

theorem recGet_setField_self (r : Record) (k : String) (v : JValue) :
    recGet (setField r k v) k = some v := by
  induction r with
  | nil => simp [setField, recGet]
  | cons hd tl ih =>
    obtain ⟨k₀, v₀⟩ := hd
    by_cases h : k₀ = k
    · simp [setField, h, recGet]
    · simp [setField, h, recGet, ih]

theorem recGet_setField_ne (r : Record) (k k' : String) (v : JValue)
    (h : k' ≠ k) : recGet (setField r k v) k' = recGet r k' := by
  induction r with
  | nil => simp [setField, recGet, Ne.symm h]
  | cons hd tl ih =>
    obtain ⟨k₀, v₀⟩ := hd
    by_cases hk : k₀ = k
    · subst hk
      simp [setField, recGet, Ne.symm h]
    · simp [setField, hk, recGet, ih]

theorem storeGet_storeSet_self (s : Store) (id : String) (r : Record) :
    storeGet (storeSet s id r) id = some r := by
  induction s with
  | nil => simp [storeSet, storeGet]
  | cons hd tl ih =>
    obtain ⟨k₀, r₀⟩ := hd
    by_cases h : k₀ = id
    · simp [storeSet, h, storeGet]
    · simp [storeSet, h, storeGet, ih]

theorem storeGet_storeSet_ne (s : Store) (id id' : String) (r : Record)
    (h : id ≠ id') : storeGet (storeSet s id' r) id = storeGet s id := by
  induction s with
  | nil => simp [storeSet, storeGet, Ne.symm h]
  | cons hd tl ih =>
    obtain ⟨k₀, r₀⟩ := hd
    by_cases hk : k₀ = id'
    · subst hk
      simp [storeSet, storeGet, Ne.symm h]
    · simp [storeSet, hk, storeGet, ih]

theorem storeGet_update_ne (s : Store) (id id' : String) (u : Record)
    (t : Nat) (h : id ≠ id') :
    storeGet (update_replica_state s id' u t) id = storeGet s id := by
  unfold update_replica_state
  cases hg : storeGet s id' with
  | none => rfl
  | some st => exact storeGet_storeSet_ne _ _ _ _ h

theorem storeGet_update_self (s : Store) (id : String) (u : Record)
    (t : Nat) (r : Record) (h : storeGet s id = some r) :
    storeGet (update_replica_state s id u t) id =
      some (setField (dictUpdate r u) "updated_at" (JValue.nat t)) := by
  unfold update_replica_state
  rw [h]
  exact storeGet_storeSet_self _ _ _

theorem storeGet_mem (s : Store) (id : String) (r : Record)
    (h : storeGet s id = some r) : (id, r) ∈ s := by
  induction s with
  | nil => simp [storeGet] at h
  | cons hd tl ih =>
    obtain ⟨k₀, r₀⟩ := hd
    by_cases hk : k₀ = id
    · subst hk
      simp [storeGet] at h
      simp [h]
    · simp [storeGet, hk] at h
      exact List.mem_cons_of_mem _ (ih h)

theorem recGet_dictUpdate (r u : Record) (k : String) :
    recGet (dictUpdate r u) k = specLastWrite u (recGet r k) k := by
  induction u generalizing r with
  | nil => rfl
  | cons hd tl ih =>
    obtain ⟨k₀, v₀⟩ := hd
    show recGet (dictUpdate (setField r k₀ v₀) tl) k =
      specLastWrite tl (if k₀ = k then some v₀ else recGet r k) k
    rw [ih]
    by_cases h : k₀ = k
    · subst h
      rw [recGet_setField_self, if_pos rfl]
    · rw [recGet_setField_ne _ _ _ _ (Ne.symm h), if_neg h]

theorem specLastWrite_of_no_key (u : Record) (orig : Option JValue)
    (k : String) (h : ∀ kv ∈ u, kv.1 ≠ k) :
    specLastWrite u orig k = orig := by
  induction u generalizing orig with
  | nil => rfl
  | cons hd tl ih =>
    show specLastWrite tl (if hd.1 = k then some hd.2 else orig) k = orig
    rw [if_neg (h hd (List.mem_cons_self _ _))]
    exact ih _ fun kv hkv => h kv (List.mem_cons_of_mem _ hkv)

theorem tickStep_storeGet_ne (live : Nat → Bool) (meta : String → Option RunMeta)
    (now : Nat) (acc : Store) (e : String × Record) (id : String)
    (h : id ≠ e.1) :
    storeGet (tickStep live meta now acc e) id = storeGet acc id := by
  unfold tickStep
  cases tickAction live meta now e.2 with
  | none => rfl
  | some u => exact storeGet_update_ne _ _ _ _ _ h

theorem foldl_tickStep_storeGet_ne (live : Nat → Bool)
    (meta : String → Option RunMeta) (now : Nat)
    (l : List (String × Record)) (acc : Store) (id : String)
    (h : ∀ e ∈ l, e.1 ≠ id) :
    storeGet (l.foldl (tickStep live meta now) acc) id = storeGet acc id := by
  induction l generalizing acc with
  | nil => rfl
  | cons hd tl ih =>
    rw [List.foldl_cons,
      ih _ fun e he => h e (List.mem_cons_of_mem _ he)]
    exact tickStep_storeGet_ne _ _ _ _ _ _
      (Ne.symm (h hd (List.mem_cons_self _ _)))

/-- Value of record `id` after one Monitor tick, when the store has no
duplicate ids: the tick applies `tickAction` of the snapshot record to it
exactly once. -/
theorem monitorTick_at (live : Nat → Bool) (meta : String → Option RunMeta)
    (now : Nat) (s : Store) (id : String) (st : Record)
    (hnd : (s.map Prod.fst).Nodup) (hget : storeGet s id = some st) :
    storeGet (monitorTick live meta now s) id =
      match tickAction live meta now st with
      | some u =>
        some (setField (dictUpdate st u) "updated_at" (JValue.nat now))
      | none => some st := by
  obtain ⟨l₁, l₂, hs⟩ := List.append_of_mem (storeGet_mem s id st hget)
  subst hs
  rw [List.map_append, List.map_cons] at hnd
  obtain ⟨hn1, hn2, hdisj⟩ := List.nodup_append.mp hnd
  have h1 : ∀ e ∈ l₁, e.1 ≠ id := by
    intro e he hc
    exact hdisj (hc ▸ List.mem_map.mpr ⟨e, he, rfl⟩) (List.mem_cons_self _ _)
  have h2 : ∀ e ∈ l₂, e.1 ≠ id := by
    intro e he hc
    exact (List.nodup_cons.mp hn2).1 (hc ▸ List.mem_map.mpr ⟨e, he, rfl⟩)
  unfold monitorTick
  rw [List.foldl_append, List.foldl_cons,
    foldl_tickStep_storeGet_ne _ _ _ l₂ _ id h2]
  have hacc : storeGet (List.foldl (tickStep live meta now)
      (l₁ ++ (id, st) :: l₂) l₁) id = some st := by
    rw [foldl_tickStep_storeGet_ne _ _ _ l₁ _ id h1]
    exact hget
  unfold tickStep
  cases ha : tickAction live meta now st with
  | none =>
    simp only [ha]
    exact hacc
  | some u =>
    simp only [ha]
    exact storeGet_update_self _ _ _ _ st hacc

theorem specLastWrite_failUpdate (p now : Nat) (o : Option JValue) :
    specLastWrite (failUpdate p now) o "status" =
      some (JValue.str "failed") := rfl

theorem specLastWrite_failUpdate_err (p now : Nat) (o : Option JValue) :
    specLastWrite (failUpdate p now) o "error_message" =
      some (JValue.str (deathMsg p)) := rfl

theorem specLastWrite_failUpdate_died (p now : Nat) (o : Option JValue) :
    specLastWrite (failUpdate p now) o "died_at" =
      some (JValue.nat now) := rfl

theorem deathMsg_ne_empty (p : Nat) : deathMsg p ≠ "" := by
  intro h
  have h' := congrArg String.length h
  rw [deathMsg, String.length_append, String.length_append] at h'
  have h0 : ("Replica process died (PID ").length = 26 := rfl
  have h1 : (")").length = 1 := rfl
  have h2 : ("").length = 0 := rfl
  rw [h0, h1, h2] at h'
  omega

theorem wsjobMergePayload_shape (ids : List String × List String)
    (curC curE : List String) (u : Record)
    (h : wsjobMergePayload ids curC curE = some u) :
    u = [("compile_wsjob", JValue.list (curC ++ newJobs ids.1 curC)),
         ("execute_wsjob", JValue.list (curE ++ newJobs ids.2 curE))] := by
  unfold wsjobMergePayload at h
  split at h
  · exact absurd h (by simp)
  · exact (Option.some.inj h).symm

theorem wsjobMergeAction_no_status (meta : String → Option RunMeta)
    (st : Record) (u : Record) (h : wsjobMergeAction meta st = some u) :
    ∀ kv ∈ u, kv.1 ≠ "status" := by
  unfold wsjobMergeAction at h
  split at h
  · split at h
    · intro kv hkv
      rw [wsjobMergePayload_shape _ _ _ _ h] at hkv
      rcases List.mem_cons.mp hkv with rfl | hkv2
      · simp
      · rcases List.mem_cons.mp hkv2 with rfl | hkv3
        · simp
        · exact absurd hkv3 (List.not_mem_nil _)
    · exact absurd h (by simp)
  · exact absurd h (by simp)

theorem tickAction_shape (live : Nat → Bool) (meta : String → Option RunMeta)
    (now : Nat) (st u : Record) (h : tickAction live meta now st = some u) :
    (∃ p, u = failUpdate p now) ∨ (∀ kv ∈ u, kv.1 ≠ "status") := by
  unfold tickAction at h
  split at h
  · split at h
    · split at h
      · split at h
        · exact Or.inr (wsjobMergeAction_no_status _ _ _ h)
        · exact Or.inl ⟨_, (Option.some.inj h).symm⟩
      · exact absurd h (by simp)
    · exact absurd h (by simp)
  · exact absurd h (by simp)

theorem recGetIn_update_self (s : Store) (rid : String) (u : Record)
    (t : Nat) (r : Record) (k : String) (hg : storeGet s rid = some r) :
    recGetIn (update_replica_state s rid u t) rid k =
      recGet (setField (dictUpdate r u) "updated_at" (JValue.nat t)) k := by
  unfold recGetIn
  rw [storeGet_update_self s rid u t r hg]

theorem recGetIn_update_ne (s : Store) (rid rid' : String) (u : Record)
    (t : Nat) (k : String) (h : rid ≠ rid') :
    recGetIn (update_replica_state s rid' u t) rid k = recGetIn s rid k := by
  unfold recGetIn
  rw [storeGet_update_ne _ _ _ _ _ h]

theorem statusOf_update_no_status (s : Store) (rid rid' : String)
    (u : Record) (t : Nat) (h : ∀ kv ∈ u, kv.1 ≠ "status") :
    statusOf (update_replica_state s rid' u t) rid = statusOf s rid := by
  by_cases hid : rid = rid'
  · cases hg : storeGet s rid' with
    | none =>
      unfold update_replica_state
      rw [hg]
    | some r =>
      unfold statusOf
      rw [hid, recGetIn_update_self s rid' u t r "status" hg,
        recGet_setField_ne _ _ _ _ (by decide), recGet_dictUpdate,
        specLastWrite_of_no_key _ _ _ h]
      unfold recGetIn
      rw [hg]
  · unfold statusOf
    rw [recGetIn_update_ne _ _ _ _ _ _ hid]

theorem statusOf_update_failUpdate (s : Store) (rid : String)
    (p t now : Nat) (r : Record) (hg : storeGet s rid = some r) :
    statusOf (update_replica_state s rid (failUpdate p now) t) rid =
      some "failed" := by
  unfold statusOf
  rw [recGetIn_update_self s rid _ t r "status" hg,
    recGet_setField_ne _ _ _ _ (by decide), recGet_dictUpdate,
    specLastWrite_failUpdate]

theorem tickStep_terminal (live : Nat → Bool) (meta : String → Option RunMeta)
    (now : Nat) (acc : Store) (e : String × Record) (rid : String)
    (h : TerminalStatus (statusOf acc rid)) :
    TerminalStatus (statusOf (tickStep live meta now acc e) rid) := by
  obtain ⟨eid, est⟩ := e
  unfold tickStep
  cases ha : tickAction live meta now est with
  | none => exact h
  | some u =>
    rcases tickAction_shape _ _ _ _ _ ha with ⟨p, rfl⟩ | hno
    · by_cases hid : rid = eid
      · cases hg : storeGet acc eid with
        | none =>
          unfold update_replica_state
          rw [hg]
          exact h
        | some r =>
          rw [hid]
          exact Or.inr (statusOf_update_failUpdate acc eid p now now r hg)
      · unfold TerminalStatus statusOf
        rw [recGetIn_update_ne _ _ _ _ _ _ hid]
        exact h
    · rw [statusOf_update_no_status _ _ _ _ _ hno]
      exact h

theorem monitorTick_terminal (live : Nat → Bool)
    (meta : String → Option RunMeta) (now : Nat) (s : Store) (rid : String)
    (h : TerminalStatus (statusOf s rid)) :
    TerminalStatus (statusOf (monitorTick live meta now s) rid) := by
  unfold monitorTick
  have hfold : ∀ (l : List (String × Record)) (acc : Store),
      TerminalStatus (statusOf acc rid) →
      TerminalStatus (statusOf (l.foldl (tickStep live meta now) acc) rid) := by
    intro l
    induction l with
    | nil => exact fun acc h => h
    | cons hd tl ih =>
      intro acc hacc
      exact ih _ (tickStep_terminal _ _ _ _ _ _ hacc)
  exact hfold s s h

theorem specLastWrite_stopUpdate (o : Option JValue) :
    specLastWrite
      [("status", JValue.str "stopped"),
       ("display_status", JValue.str "Failed"),
       ("endpoint", JValue.str "NA")] o "status" =
      some (JValue.str "stopped") := rfl

theorem statusOf_stop_self (s : Store) (rid : String) (force : Bool)
    (wp : Option Nat) (now : Nat) (r : Record)
    (hg : storeGet s rid = some r) :
    statusOf (stop_replica s rid force wp now).1 rid = some "stopped" := by
  unfold stop_replica
  rw [hg]
  unfold statusOf
  rw [recGetIn_update_self s rid _ now r "status" hg,
    recGet_setField_ne _ _ _ _ (by decide), recGet_dictUpdate,
    specLastWrite_stopUpdate]

theorem stop_terminal (s : Store) (rid rid' : String) (force : Bool)
    (wp : Option Nat) (now : Nat)
    (h : TerminalStatus (statusOf s rid)) :
    TerminalStatus (statusOf (stop_replica s rid' force wp now).1 rid) := by
  cases hg : storeGet s rid' with
  | none =>
    unfold stop_replica
    rw [hg]
    exact h
  | some r =>
    by_cases hid : rid = rid'
    · rw [hid]
      exact Or.inl (statusOf_stop_self s rid' force wp now r hg)
    · unfold stop_replica
      rw [hg]
      unfold TerminalStatus statusOf
      rw [recGetIn_update_ne _ _ _ _ _ _ hid]
      exact h

theorem applyUpdates_field (rid k : String) (hk : k ≠ "updated_at") :
    ∀ (us : List (Record × Nat)) (s : Store) (r0 : Record),
      storeGet s rid = some r0 →
      recGetIn (applyUpdates s rid us) rid k =
        specLastWriteSeq us (recGet r0 k) k := by
  intro us
  induction us with
  | nil =>
    intro s r0 hex
    show recGetIn s rid k = recGet r0 k
    unfold recGetIn
    rw [hex]
  | cons hd tl ih =>
    intro s r0 hex
    obtain ⟨u, t⟩ := hd
    show recGetIn (applyUpdates (update_replica_state s rid u t) rid tl) rid k
      = specLastWriteSeq tl (specLastWrite u (recGet r0 k) k) k
    rw [← recGet_dictUpdate,
      ← recGet_setField_ne (dictUpdate r0 u) "updated_at" k (JValue.nat t) hk]
    exact ih _ _ (storeGet_update_self s rid u t r0 hex)

theorem updatedAtNat_update (s : Store) (rid : String) (u : Record)
    (t : Nat) (r : Record) (hg : storeGet s rid = some r) :
    updatedAtNat (update_replica_state s rid u t) rid = t := by
  unfold updatedAtNat
  rw [recGetIn_update_self s rid u t r "updated_at" hg, recGet_setField_self]

theorem updatedAtTrace_eq (rid : String) :
    ∀ (us : List (Record × Nat)) (s : Store) (r0 : Record),
      storeGet s rid = some r0 →
      updatedAtTrace s rid us = updatedAtNat s rid :: us.map Prod.snd := by
  intro us
  induction us with
  | nil => intro s r0 hex; rfl
  | cons hd tl ih =>
    intro s r0 hex
    have htl := ih (update_replica_state s rid hd.1 hd.2) _
      (storeGet_update_self s rid hd.1 hd.2 r0 hex)
    unfold updatedAtTrace at htl ⊢
    rw [List.scanl_cons, List.singleton_append, List.map_cons, htl,
      updatedAtNat_update s rid hd.1 hd.2 r0 hex, List.map_cons]

theorem storeSet_map_fst (s : Store) (rid : String) (r' r : Record)
    (hg : storeGet s rid = some r) :
    (storeSet s rid r').map Prod.fst = s.map Prod.fst := by
  induction s with
  | nil => simp [storeGet] at hg
  | cons hd tl ih =>
    obtain ⟨k₀, r₀⟩ := hd
    by_cases hk : k₀ = rid
    · subst hk
      simp [storeSet]
    · simp only [storeGet, if_neg hk] at hg
      simp [storeSet, hk, ih hg]

theorem update_map_fst (s : Store) (rid : String) (u : Record) (t : Nat) :
    (update_replica_state s rid u t).map Prod.fst = s.map Prod.fst := by
  unfold update_replica_state
  cases hg : storeGet s rid with
  | none => rfl
  | some r => exact storeSet_map_fst s rid _ r hg

theorem tickStep_map_fst (live : Nat → Bool) (meta : String → Option RunMeta)
    (now : Nat) (acc : Store) (e : String × Record) :
    (tickStep live meta now acc e).map Prod.fst = acc.map Prod.fst := by
  unfold tickStep
  cases tickAction live meta now e.2 with
  | none => rfl
  | some u => exact update_map_fst _ _ _ _

theorem monitorTick_map_fst (live : Nat → Bool)
    (meta : String → Option RunMeta) (now : Nat) (s : Store) :
    (monitorTick live meta now s).map Prod.fst = s.map Prod.fst := by
  unfold monitorTick
  have hfold : ∀ (l : List (String × Record)) (acc : Store),
      (l.foldl (tickStep live meta now) acc).map Prod.fst =
        acc.map Prod.fst := by
    intro l
    induction l with
    | nil => intro acc; rfl
    | cons hd tl ih =>
      intro acc
      rw [List.foldl_cons, ih, tickStep_map_fst]
  exact hfold s s

theorem monitorTick_no_pid (live : Nat → Bool)
    (meta : String → Option RunMeta) (now : Nat) (s : Store) (rid : String)
    (st : Record) (x : String)
    (hnd : (s.map Prod.fst).Nodup) (hget : storeGet s rid = some st)
    (hstatus : recGet st "status" = some (JValue.str x))
    (hrun : x ∈ runningStatuses) (hpid : pidNatOf st = none) :
    storeGet (monitorTick live meta now s) rid = some st := by
  have ha : tickAction live meta now st = none := by
    simp [tickAction, hstatus, hpid, hrun]
  have h := monitorTick_at live meta now s rid st hnd hget
  rw [ha] at h
  exact h

/-- C1 (counterexample): the claim "once a record's status is terminal,
every later read shows a terminal status, for every sequence of Worker,
Monitor and stop operations" is false: after a stop has set status
`stopped`, one Worker transition (the worker's first `creating` write)
regresses it to the non-terminal `creating`, because
`update_replica_state` merges unconditionally. -/
theorem C1_counterexample :
    statusOf c1Stopped "r" = some "stopped" ∧
    statusOf c1AfterWorker "r" = some "creating" ∧
    ¬ TerminalStatus (statusOf c1AfterWorker "r") := by
  refine ⟨by decide, by decide, by decide⟩

/-- C1 (amended): Monitor reconciliation and Coordinator stop never
regress a terminal status — over any sequence of non-Worker operations a
record whose status is `stopped` or `failed` keeps a terminal status —
but Worker transitions are unguarded merges and can regress it. -/
theorem C1_terminal_preserved_without_worker (s : Store) (rid : String)
    (ops : List Op) (hops : ∀ op ∈ ops, op.isWorker = false)
    (hterm : TerminalStatus (statusOf s rid)) :
    TerminalStatus (statusOf (applyOps s ops) rid) := by
  have main : ∀ (l : List Op), (∀ op ∈ l, op.isWorker = false) →
      ∀ (s' : Store), TerminalStatus (statusOf s' rid) →
      TerminalStatus (statusOf (applyOps s' l) rid) := by
    intro l
    induction l with
    | nil => exact fun _ s' h => h
    | cons op tl ih =>
      intro hl s' hterm'
      have hop : op.isWorker = false := hl op (List.mem_cons_self _ _)
      have htl : ∀ o ∈ tl, o.isWorker = false :=
        fun o ho => hl o (List.mem_cons_of_mem _ ho)
      show TerminalStatus (statusOf (applyOps (applyOp s' op) tl) rid)
      apply ih htl
      cases op with
      | worker rid' step now => simp [Op.isWorker] at hop
      | monitor live meta now => exact monitorTick_terminal _ _ _ _ _ hterm'
      | stop rid' force wp now => exact stop_terminal _ _ _ _ _ _ hterm'
  exact main ops hops s hterm

/-- Witness for the amended C1 at a concrete stopped record and a concrete
monitor-then-stop sequence. -/
theorem C1_witness : TerminalStatus (statusOf (applyOps c1Stopped c1WitnessOps) "r") := by
  apply C1_terminal_preserved_without_worker c1Stopped "r" c1WitnessOps
  · intro op hop
    rcases List.mem_cons.mp hop with rfl | h2
    · rfl
    · rcases List.mem_cons.mp h2 with rfl | h3
      · rfl
      · exact absurd h3 (List.not_mem_nil _)
  · decide

/-- C2 (counterexample): the claim that a `force=false` stop waits a grace
period and escalates to a forceful kill on timeout is false: on a record
with live worker pid 10 and workload pid 20 the stop path emits exactly
one SIGTERM per process and no SIGKILL ever, regardless of whether the
processes exit, and immediately records `stopped`. -/
theorem C2_counterexample :
    (stop_replica c2Store "r" false (some 10) 1).2 =
      [(10, Sig.sigterm), (20, Sig.sigterm)] ∧
    Sig.sigkill ∉ ((stop_replica c2Store "r" false (some 10) 1).2.map Prod.snd) ∧
    statusOf (stop_replica c2Store "r" false (some 10) 1).1 "r" =
      some "stopped" := by
  refine ⟨by decide, by decide, by decide⟩

/-- C2 (amended): stopping with `force=false` sends a single SIGTERM to
the recorded worker pid and workload pid (each when present and nonzero),
with no liveness check, no grace-period wait and no SIGKILL escalation,
and then records status `stopped`. -/
theorem mem_workerSigList (sig : Sig) (wp : Option Nat) (q : Nat × Sig)
    (h : q ∈ workerSigList sig wp) : q.2 = sig := by
  cases wp with
  | none => exact absurd h (List.not_mem_nil _)
  | some p =>
    simp only [workerSigList] at h
    by_cases hp : p = 0
    · rw [if_pos hp] at h
      exact absurd h (List.not_mem_nil _)
    · rw [if_neg hp] at h
      rcases List.mem_cons.mp h with rfl | h2
      · rfl
      · exact absurd h2 (List.not_mem_nil _)

theorem mem_replicaSigList (sig : Sig) (rp : Option Nat) (q : Nat × Sig)
    (h : q ∈ replicaSigList sig rp) : q.2 = sig := by
  cases rp with
  | none => exact absurd h (List.not_mem_nil _)
  | some p =>
    simp only [replicaSigList] at h
    rcases List.mem_cons.mp h with rfl | h2
    · rfl
    · exact absurd h2 (List.not_mem_nil _)

theorem C2_stop_sends_single_sigterm (s : Store) (rid : String)
    (wp : Option Nat) (now : Nat) (st : Record)
    (hg : storeGet s rid = some st) :
    (stop_replica s rid false wp now).2 =
      workerSigList Sig.sigterm wp ++
        replicaSigList Sig.sigterm (pidNatOf st) ∧
    (∀ q ∈ (stop_replica s rid false wp now).2, q.2 = Sig.sigterm) ∧
    statusOf (stop_replica s rid false wp now).1 rid = some "stopped" := by
  have hsigs : (stop_replica s rid false wp now).2 =
      workerSigList Sig.sigterm wp ++
        replicaSigList Sig.sigterm (pidNatOf st) := by
    unfold stop_replica
    rw [hg]
    rfl
  refine ⟨hsigs, ?_, statusOf_stop_self s rid false wp now st hg⟩
  intro q hq
  rw [hsigs] at hq
  rcases List.mem_append.mp hq with h1 | h1
  · exact mem_workerSigList _ _ _ h1
  · exact mem_replicaSigList _ _ _ h1

/-- Witness for the amended C2 on a concrete store. -/
theorem C2_witness :
    (∀ q ∈ (stop_replica c2Store "r" false (some 0) 1).2,
      q.2 = Sig.sigterm) ∧
    statusOf (stop_replica c2Store "r" false (some 0) 1).1 "r" =
      some "stopped" := by
  have h := C2_stop_sends_single_sigterm c2Store "r" (some 0) 1 _ rfl
  exact ⟨h.2.1, h.2.2⟩

/-- C3 (counterexample): the claim that a second `CreateRecord` for an
existing id fails and leaves the existing record unchanged is false: the
second call succeeds (the operation is total and signals nothing) and
replaces the stored record. -/
theorem C3_counterexample :
    get_replica_state c3Second "r" ≠ get_replica_state c3First "r" := by
  decide

/-- C3 (amended): `CreateRecord(id, initialFields)` writes the freshly
initialized record unconditionally; when a record for `id` already exists
it is overwritten (no error is reported), the result being independent of
any previously stored record. -/
theorem C3_create_overwrites (s : Store) (rid : String) (init : Record)
    (t : Nat) :
    get_replica_state (create_replica_state s rid init t) rid =
      some (dictUpdate
        [("replica_id", JValue.str rid),
         ("status", JValue.str "pending"),
         ("created_at", JValue.nat t),
         ("updated_at", JValue.nat t)] init) ∧
    get_replica_state (create_replica_state s rid init t) rid =
      get_replica_state (create_replica_state [] rid init t) rid := by
  unfold get_replica_state create_replica_state
  refine ⟨storeGet_storeSet_self _ _ _, ?_⟩
  rw [storeGet_storeSet_self, storeGet_storeSet_self]

/-- C4 (counterexample): the claim that every liveness-checking component
reports a permission-denied pid as alive is false: the Monitor's
`_check_pid_alive` catches `OSError` — which includes `PermissionError` —
and reports dead, while `health.is_process_alive` reports alive. -/
theorem C4_counterexample :
    check_pid_alive 5 (fun _ => KillResult.permissionDenied) = false ∧
    is_process_alive 5 (fun _ => KillResult.permissionDenied) = true := by
  decide

/-- C4 (amended): `health.is_process_alive` classifies a positive pid as
alive exactly on probe outcomes `ok` and `permissionDenied` (no-such-
process and all other errors are dead), but the Monitor's
`_check_pid_alive` reports alive exactly on `ok`, treating every probe
error — permission denied included — as dead. -/
theorem C4_liveness_classification (pid : Int) (kill0 : Int → KillResult) :
    (0 < pid →
      (is_process_alive pid kill0 = true ↔
        kill0 pid = KillResult.ok ∨
        kill0 pid = KillResult.permissionDenied)) ∧
    (check_pid_alive pid kill0 = true ↔ kill0 pid = KillResult.ok) := by
  constructor
  · intro hp
    unfold is_process_alive
    rw [if_neg (by omega)]
    cases kill0 pid <;> simp
  · unfold check_pid_alive
    cases kill0 pid <;> simp

/-- Witness for the amended C4 at pid 1 with a permission-denied probe. -/
theorem C4_witness :
    is_process_alive 1 (fun _ => KillResult.permissionDenied) = true ∧
    check_pid_alive 1 (fun _ => KillResult.permissionDenied) = false := by
  constructor
  · exact ((C4_liveness_classification 1
      (fun _ => KillResult.permissionDenied)).1 (by norm_num)).mpr (Or.inr rfl)
  · decide

/-- C5 (confirmed): in one Monitor tick, every record in a should-still-be-
running status whose recorded workload pid is found dead is transitioned
to `failed`, with the non-empty death `error_message` and a `died_at`
timestamp. -/
theorem C5_dead_workload_marked_failed (s : Store) (rid : String)
    (st : Record) (x : String) (p now : Nat) (live : Nat → Bool)
    (meta : String → Option RunMeta)
    (hnd : (s.map Prod.fst).Nodup)
    (hget : storeGet s rid = some st)
    (hstatus : recGet st "status" = some (JValue.str x))
    (hrun : x ∈ runningStatuses)
    (hpid : pidNatOf st = some p)
    (hdead : live p = false) :
    statusOf (monitorTick live meta now s) rid = some "failed" ∧
    errMsgOf (monitorTick live meta now s) rid = some (deathMsg p) ∧
    deathMsg p ≠ "" ∧
    recGetIn (monitorTick live meta now s) rid "died_at" =
      some (JValue.nat now) := by
  have ha : tickAction live meta now st = some (failUpdate p now) := by
    simp [tickAction, hstatus, hpid, hdead, hrun]
  have hrec := monitorTick_at live meta now s rid st hnd hget
  rw [ha] at hrec
  have hfield : ∀ k, recGetIn (monitorTick live meta now s) rid k =
      recGet (setField (dictUpdate st (failUpdate p now)) "updated_at"
        (JValue.nat now)) k := by
    intro k
    unfold recGetIn
    rw [hrec]
  refine ⟨?_, ?_, deathMsg_ne_empty p, ?_⟩
  · unfold statusOf
    rw [hfield "status", recGet_setField_ne _ _ _ _ (by decide),
      recGet_dictUpdate, specLastWrite_failUpdate]
  · unfold errMsgOf
    rw [hfield "error_message", recGet_setField_ne _ _ _ _ (by decide),
      recGet_dictUpdate, specLastWrite_failUpdate_err]
  · rw [hfield "died_at", recGet_setField_ne _ _ _ _ (by decide),
      recGet_dictUpdate, specLastWrite_failUpdate_died]

/-- Witness for C5: a `ready` record with dead pid 4 is failed in one tick. -/
theorem C5_witness :
    statusOf (monitorTick (fun _ => false) (fun _ => none) 9 c5Store) "r" =
      some "failed" ∧
    errMsgOf (monitorTick (fun _ => false) (fun _ => none) 9 c5Store) "r" =
      some (deathMsg 4) := by
  have h := C5_dead_workload_marked_failed c5Store "r" _ "ready" 4 9
    (fun _ => false) (fun _ => none) (by decide) rfl rfl (by decide) rfl rfl
  exact ⟨h.1, h.2.1⟩

/-- C6 (confirmed): one Monitor tick against a record with
`compile_wsjob = ["a"]`, `execute_wsjob = []` and a metadata file listing
compile jobs `a`,`b` and execute job `x` merges to `["a","b"]` / `["x"]`
(append-only, deduplicated), and a second identical tick changes
neither list. -/
theorem C6_wsjob_merge_roundtrip :
    (compileOf (monitorTick (fun _ => true) c6Meta 1 c6Store) "r" =
        some ["a", "b"] ∧
      executeOf (monitorTick (fun _ => true) c6Meta 1 c6Store) "r" =
        some ["x"]) ∧
    (compileOf (monitorTick (fun _ => true) c6Meta 2
          (monitorTick (fun _ => true) c6Meta 1 c6Store)) "r" =
        some ["a", "b"] ∧
      executeOf (monitorTick (fun _ => true) c6Meta 2
          (monitorTick (fun _ => true) c6Meta 1 c6Store)) "r" =
        some ["x"]) := by
  refine ⟨⟨by decide, by decide⟩, by decide, by decide⟩

/-- C7 (confirmed): over any sequence of `UpdateRecord` calls on an
existing id, provided the wall clock never runs backwards, each read of a
field other than `updated_at` after the sequence equals the spec-side
last-write-wins merge, and the observable `updated_at` values are
non-decreasing. -/
theorem C7_update_sequence (s : Store) (rid : String)
    (us : List (Record × Nat)) (r0 : Record)
    (hex : storeGet s rid = some r0)
    (hclock : List.Chain' (· ≤ ·) (updatedAtNat s rid :: us.map Prod.snd)) :
    (∀ k, k ≠ "updated_at" →
      recGetIn (applyUpdates s rid us) rid k =
        specLastWriteSeq us (recGet r0 k) k) ∧
    List.Chain' (· ≤ ·) (updatedAtTrace s rid us) := by
  refine ⟨fun k hk => applyUpdates_field rid k hk us s r0 hex, ?_⟩
  rw [updatedAtTrace_eq rid us s r0 hex]
  exact hclock

/-- Witness for C7 over a two-call sequence overwriting one field. -/
theorem C7_witness :
    recGetIn (applyUpdates c7Store "r" c7Us) "r" "x" =
      some (JValue.str "2") ∧
    List.Chain' (· ≤ ·) (updatedAtTrace c7Store "r" c7Us) := by
  have hclock : List.Chain' (· ≤ ·)
      (updatedAtNat c7Store "r" :: c7Us.map Prod.snd) := by
    show List.Chain' (· ≤ ·) (0 :: [1, 2])
    simp
  have h := C7_update_sequence c7Store "r" c7Us _ rfl hclock
  refine ⟨?_, h.2⟩
  rw [h.1 "x" (by decide)]
  decide

/-- C9 (confirmed): for every id, `CreateEntity` immediately followed by
`GetEntity` yields a record with status `pending` and the not-available
endpoint sentinel `"NA"`. -/
theorem C9_create_then_get (s : Store) (rid : String)
    (req : CreateReplicaReq) (wd : String) (now : Nat) :
    statusOf (create_replica s rid req wd now) rid = some "pending" ∧
    endpointOf (create_replica s rid req wd now) rid = some "NA" := by
  unfold create_replica create_replica_state statusOf endpointOf recGetIn
  rw [storeGet_storeSet_self]
  constructor <;> rfl

/-- C10 (confirmed): a record in a should-still-be-running status with no
truthy workload pid recorded (absent, null or zero) is never touched by
liveness reconciliation: its whole record — in particular `status` and
`error_message` — is unchanged by any number of Monitor ticks. -/
theorem C10_missing_pid_untouched (s : Store) (rid : String) (st : Record)
    (x : String) (ps : List TickParams)
    (hnd : (s.map Prod.fst).Nodup)
    (hget : storeGet s rid = some st)
    (hstatus : recGet st "status" = some (JValue.str x))
    (hrun : x ∈ runningStatuses)
    (hpid : pidNatOf st = none) :
    storeGet (runTicks s ps) rid = some st ∧
    statusOf (runTicks s ps) rid = statusOf s rid ∧
    errMsgOf (runTicks s ps) rid = errMsgOf s rid := by
  have main : ∀ (l : List TickParams) (s' : Store),
      (s'.map Prod.fst).Nodup → storeGet s' rid = some st →
      storeGet (runTicks s' l) rid = some st := by
    intro l
    induction l with
    | nil => exact fun s' _ h => h
    | cons p tl ih =>
      intro s' hnd' hget'
      show storeGet (runTicks (monitorTick p.live p.meta p.now s') tl) rid =
        some st
      apply ih
      · rw [monitorTick_map_fst]
        exact hnd'
      · exact monitorTick_no_pid p.live p.meta p.now s' rid st x hnd' hget'
          hstatus hrun hpid
  have hfinal := main ps s hnd hget
  refine ⟨hfinal, ?_, ?_⟩
  · unfold statusOf recGetIn
    rw [hfinal, hget]
  · unfold errMsgOf recGetIn
    rw [hfinal, hget]

/-- Witness for C10: a `starting` record with no pid survives a tick with
an all-dead liveness oracle untouched. -/
theorem C10_witness :
    statusOf (runTicks c10Store c10Ticks) "r" = statusOf c10Store "r" ∧
    errMsgOf (runTicks c10Store c10Ticks) "r" = errMsgOf c10Store "r" := by
  have h := C10_missing_pid_untouched c10Store "r" _ "starting" c10Ticks
    (by decide) rfl rfl (by decide) rfl
  exact ⟨h.2.1, h.2.2⟩

theorem pollGuard_eq (liveAt : Option (Nat → Bool)) (i : Nat) :
    (match liveAt with
     | some live => !(live i)
     | none => false) = !(liveOk liveAt i) := by
  cases liveAt <;> simp [liveOk]

theorem pollHealthAux_succ (liveAt : Option (Nat → Bool))
    (att : Nat → AttemptResult) (i fuel : Nat) :
    pollHealthAux liveAt att i (fuel + 1) =
      if (!(liveOk liveAt i)) = true then false
      else
        match att i with
        | AttemptResult.ok200 => true
        | _ => pollHealthAux liveAt att (i + 1) fuel := by
  conv_lhs => unfold pollHealthAux
  rw [pollGuard_eq]

theorem pollHealth_shift (liveAt : Option (Nat → Bool))
    (att : Nat → AttemptResult) (i n : Nat)
    (hl : liveOk liveAt i = true) (hne : att i ≠ AttemptResult.ok200)
    (ih : pollHealthAux liveAt att (i + 1) n = true ↔
      ∃ d, d < n ∧ att (i + 1 + d) = AttemptResult.ok200 ∧
        ∀ d' ≤ d, liveOk liveAt (i + 1 + d') = true) :
    pollHealthAux liveAt att (i + 1) n = true ↔
      ∃ d, d < n + 1 ∧ att (i + d) = AttemptResult.ok200 ∧
        ∀ d' ≤ d, liveOk liveAt (i + d') = true := by
  rw [ih]
  constructor
  · rintro ⟨d, hd, hatt, hlive⟩
    refine ⟨d + 1, by omega, ?_, ?_⟩
    · have he : i + (d + 1) = i + 1 + d := by omega
      rw [he]
      exact hatt
    · intro d' hd'
      cases d' with
      | zero => simpa using hl
      | succ e =>
        have he : i + (e + 1) = i + 1 + e := by omega
        rw [he]
        exact hlive e (by omega)
  · rintro ⟨d, hd, hatt, hlive⟩
    cases d with
    | zero =>
      rw [Nat.add_zero] at hatt
      exact absurd hatt hne
    | succ e =>
      refine ⟨e, by omega, ?_, ?_⟩
      · have he : i + 1 + e = i + (e + 1) := by omega
        rw [he]
        exact hatt
      · intro d' hd'
        have he : i + 1 + d' = i + (d' + 1) := by omega
        rw [he]
        exact hlive (d' + 1) (by omega)

theorem pollHealthAux_true_iff (liveAt : Option (Nat → Bool))
    (att : Nat → AttemptResult) :
    ∀ (fuel i : Nat),
      pollHealthAux liveAt att i fuel = true ↔
        ∃ d, d < fuel ∧ att (i + d) = AttemptResult.ok200 ∧
          ∀ d' ≤ d, liveOk liveAt (i + d') = true := by
  intro fuel
  induction fuel with
  | zero =>
    intro i
    simp [pollHealthAux]
  | succ n ih =>
    intro i
    rw [pollHealthAux_succ]
    by_cases hl : liveOk liveAt i = true
    · rw [hl, if_neg (by simp)]
      cases ha : att i with
      | ok200 =>
        constructor
        · intro _
          refine ⟨0, Nat.succ_pos n, ?_, ?_⟩
          · rw [Nat.add_zero]
            exact ha
          · intro d' hd'
            rw [Nat.le_zero.mp hd', Nat.add_zero]
            exact hl
        · intro _
          rfl
      | badStatus c =>
        exact pollHealth_shift liveAt att i n hl (by simp [ha]) (ih (i + 1))
      | netError =>
        exact pollHealth_shift liveAt att i n hl (by simp [ha]) (ih (i + 1))
    · have hl' : liveOk liveAt i = false := by
        cases hb : liveOk liveAt i
        · rfl
        · exact absurd hb hl
      rw [hl', if_pos (by simp)]
      constructor
      · intro h
        exact absurd h (by simp)
      · rintro ⟨d, hd, hatt, hlive⟩
        have h0 := hlive 0 (Nat.zero_le d)
        rw [Nat.add_zero, hl'] at h0
        exact absurd h0 (by simp)

/-- C8 (confirmed): the health poll returns `true` exactly when some
attempt on the grid before the overall deadline observes a 200 while the
process guard has not tripped; it returns `false` once the deadline
elapses, and when a pid is supplied a dead process aborts the loop with
`false` immediately, independent of the remaining deadline; a failed
individual attempt alone never terminates the loop — it just advances to
the next attempt. -/
theorem C8_poll_health_characterization (timeout_s poll_interval_s : Nat)
    (liveAt : Option (Nat → Bool)) (att : Nat → AttemptResult) :
    (poll_health_endpoint timeout_s poll_interval_s liveAt att = true ↔
      ∃ d, d < numAttempts timeout_s poll_interval_s ∧
        att d = AttemptResult.ok200 ∧
        ∀ d' ≤ d, liveOk liveAt d' = true) ∧
    (∀ (live : Nat → Bool) (i fuel : Nat), live i = false →
      pollHealthAux (some live) att i (fuel + 1) = false) ∧
    (∀ (i fuel : Nat), liveOk liveAt i = true →
      att i ≠ AttemptResult.ok200 →
      pollHealthAux liveAt att i (fuel + 1) =
        pollHealthAux liveAt att (i + 1) fuel) := by
  refine ⟨?_, ?_, ?_⟩
  · unfold poll_health_endpoint
    rw [pollHealthAux_true_iff]
    constructor
    · rintro ⟨d, hd, hatt, hlive⟩
      rw [Nat.zero_add] at hatt
      refine ⟨d, hd, hatt, fun d' hd' => ?_⟩
      have hx := hlive d' hd'
      rw [Nat.zero_add] at hx
      exact hx
    · rintro ⟨d, hd, hatt, hlive⟩
      refine ⟨d, hd, ?_, fun d' hd' => ?_⟩
      · rw [Nat.zero_add]
        exact hatt
      · rw [Nat.zero_add]
        exact hlive d' hd'
  · intro live i fuel hdead
    rw [pollHealthAux_succ,
      show liveOk (some live) i = live i from rfl, hdead,
      if_pos (by simp)]
  · intro i fuel hlv hne
    rw [pollHealthAux_succ, hlv, if_neg (by simp)]
    cases ha : att i with
    | ok200 => exact absurd ha hne
    | badStatus c => rfl
    | netError => rfl

/-- Witness for C8: a 200 on the second attempt yields `true` within a
20s/5s budget, and a dead process aborts with `false` despite fuel left. -/
theorem C8_witness :
    poll_health_endpoint 20 5 (some (fun _ => true)) c8Att = true ∧
    pollHealthAux (some (fun _ => false)) c8Att 0 3 = false := by
  constructor
  · exact (C8_poll_health_characterization 20 5 (some (fun _ => true))
      c8Att).1.mpr ⟨1, by decide, by decide, fun d' hd' => rfl⟩
  · exact (C8_poll_health_characterization 20 5 (some (fun _ => false))
      c8Att).2.1 (fun _ => false) 0 2 rfl
